import Mathlib

/-!
# Verification of the db-sync-engine synchronizer (src/main.py)

Shallow embedding of the wipe-and-reload table synchronizer. Databases are
modelled as association lists from table name to row list; a row is an
ordered mapping from column name to value, copied verbatim. The destination
session's uncommitted transaction is an explicit `pending` snapshot that is
published on commit and discarded on rollback. The tracking table lives in
the destination; `update_sync_tracking` uses its own session whose commit is
independent of the main sync session, exactly as in the source. External
failures (database errors on individual statements) are injected through a
`Faults` record consulted at each statement, and `datetime.utcnow` is
modelled as a monotone counter `clock` advanced once per tracking call.
Sessions are counted by an explicit `sess` balance: each function increments
it on session construction and decrements it where the source's `finally`
block closes the session.
-/

namespace DbSync

abbrev TableName := String

/-- A row: ordered mapping of column name to value, no identity beyond its
column values (spec section 3). -/
abbrev Row := List (String × Int)

/-- A database side: association list from table name to that table's rows. -/
abbrev Tables := List (TableName × List Row)

/-- One record of the destination's `sync_tracking` table
(`table_name`, `last_synced_at`); the surrogate `id` column plays no role in
any behaviour and is omitted. -/
structure TrackingRecord where
  table_name : TableName
  last_synced_at : Nat
deriving DecidableEq

/-- Errors raised by database statements (SQLAlchemy exceptions in the
source), named after the failing statement. -/
inductive DBError where
  | noSuchTable (t : TableName)
  | ddlFailed (t : TableName)
  | selectFailed (t : TableName)
  | deleteFailed (t : TableName)
  | insertFailed (t : TableName)
  | commitFailed
  | trackingSelectFailed (t : TableName)
  | trackingWriteFailed (t : TableName)
  | trackingCommitFailed (t : TableName)
deriving DecidableEq

/-- Log lines emitted by the source's `logger` calls, carrying the data the
corresponding message interpolates. -/
inductive LogEntry where
  | infoTableCreated (t : TableName)
  | infoTrackingUpdated (t : TableName)
  | infoSyncOk (batch : List TableName)
  | infoFirstRun
  | infoNotFirstRun
  | infoSetup (t : TableName)
  | infoSetupComplete
  | errSync (batch : List TableName) (e : DBError)
  | errTracking (t : TableName) (e : DBError)
  | errFirstRunCheck
  | errMissingInPrimary (t : TableName)
deriving DecidableEq

/-- Fault injection: which database statements raise. A `true` entry makes
the corresponding statement in the source raise an exception. -/
structure Faults where
  createDDL : TableName → Bool
  selectPrimary : TableName → Bool
  deleteSec : TableName → Bool
  insertSec : TableName → Row → Bool
  commitMain : Bool
  trackingSelect : TableName → Bool
  trackingWrite : TableName → Bool
  trackingCommit : TableName → Bool
  trackingRead : Bool

/-- The fault-free environment: every statement succeeds. -/
def noFaults : Faults where
  createDDL := fun _ => false
  selectPrimary := fun _ => false
  deleteSec := fun _ => false
  insertSec := fun _ _ => false
  commitMain := false
  trackingSelect := fun _ => false
  trackingWrite := fun _ => false
  trackingCommit := fun _ => false
  trackingRead := false

/-- Look a table up by name. -/
def lookupTable (tables : Tables) (t : TableName) : Option (List Row) :=
  match tables with
  | [] => none
  | (n, rows) :: rest => if n = t then some rows else lookupTable rest t

/-- Replace the rows of table `t` (or create the table if absent). -/
def setTable (tables : Tables) (t : TableName) (rows : List Row) : Tables :=
  match tables with
  | [] => [(t, rows)]
  | (n, rs) :: rest =>
    if n = t then (n, rows) :: rest else (n, rs) :: setTable rest t rows

/-- Whether a table of this name exists (`table_name in metadata.tables`). -/
def hasTable (tables : Tables) (t : TableName) : Bool :=
  (lookupTable tables t).isSome

/-- src/main.py lines 27-33, `create_table_if_not_exists`: if the table is
absent from the destination, introspect it from the source
(`NoSuchTableError` when absent there too) and create it, empty, via DDL on
the destination engine (auto-committed, outside the sync session's
transaction). -/
def create_table_if_not_exists (f : Faults) (primary secComm : Tables)
    (t : TableName) : Except DBError (Tables × List LogEntry) :=
  if hasTable secComm t then Except.ok (secComm, [])
  else
    match lookupTable primary t with
    | none => Except.error (DBError.noSuchTable t)
    | some _ =>
      if f.createDDL t then Except.error (DBError.ddlFailed t)
      else Except.ok (setTable secComm t [], [LogEntry.infoTableCreated t])

/-- The net effect of the tracking upsert's statements: update every record
whose `table_name` matches (the source's UPDATE has only that WHERE clause),
else insert one new record. -/
def upsertTracking (tracking : List TrackingRecord) (t : TableName)
    (now : Nat) : List TrackingRecord :=
  if tracking.any (fun r => decide (r.table_name = t)) then
    tracking.map (fun r =>
      if r.table_name = t then { r with last_synced_at := now } else r)
  else
    tracking ++ [{ table_name := t, last_synced_at := now }]

/-- Result of `update_sync_tracking`: new committed tracking table, advanced
clock, session balance, and emitted log lines. -/
structure TrackingResult where
  tracking : List TrackingRecord
  clock : Nat
  sess : Nat
  logs : List LogEntry
deriving DecidableEq

/-- src/main.py lines 63-90, `update_sync_tracking`: opens its own
destination session, takes `now`, selects the record for `t`, updates it if
present else inserts, and commits — all under a `try` whose `except` rolls
the private session back (leaving the committed tracking table unchanged)
and logs the error, and whose `finally` closes the session. The commit here
is independent of the main sync session's transaction. -/
def update_sync_tracking (f : Faults) (t : TableName)
    (tracking : List TrackingRecord) (clock sess : Nat) : TrackingResult :=
  let s1 := sess + 1
  let now := clock
  if f.trackingSelect t then
    { tracking := tracking, clock := clock + 1, sess := s1 - 1,
      logs := [LogEntry.errTracking t (DBError.trackingSelectFailed t)] }
  else if f.trackingWrite t then
    { tracking := tracking, clock := clock + 1, sess := s1 - 1,
      logs := [LogEntry.errTracking t (DBError.trackingWriteFailed t)] }
  else if f.trackingCommit t then
    { tracking := tracking, clock := clock + 1, sess := s1 - 1,
      logs := [LogEntry.errTracking t (DBError.trackingCommitFailed t)] }
  else
    { tracking := upsertTracking tracking t now, clock := clock + 1,
      sess := s1 - 1, logs := [LogEntry.infoTrackingUpdated t] }

/-- src/main.py lines 106-107: insert the source rows one by one into the
session's pending view; a failing insert leaves the rows inserted so far
pending and raises. Returns the rows accumulated and the error, if any. -/
def insertRows (f : Faults) (t : TableName) (acc : List Row) :
    List Row → List Row × Option DBError
  | [] => (acc, none)
  | r :: rs =>
    if f.insertSec t r then (acc, some (DBError.insertFailed t))
    else insertRows f t (acc ++ [r]) rs

/-- State threaded through the per-table loop of `sync_table_changes`:
`secComm` is the committed destination (DDL lands here immediately),
`pending` the main session's uncommitted view of the destination tables,
`tracking` the committed tracking table (the tracking session commits into
it per table), plus clock, session balance and accumulated logs. -/
structure LoopState where
  secComm : Tables
  pending : Tables
  tracking : List TrackingRecord
  clock : Nat
  sess : Nat
  logs : List LogEntry
deriving DecidableEq

/-- One iteration of the loop at src/main.py lines 98-109: mirror the
schema, reflect both tables, read all source rows, delete the destination
rows and reinsert every source row in the main session's transaction, then
run the tracking upsert in its own session. Any statement failure raises
(second component `some e`). -/
def syncOneTable (f : Faults) (primary : Tables) (t : TableName)
    (ls : LoopState) : LoopState × Option DBError :=
  match create_table_if_not_exists f primary ls.secComm t with
  | Except.error e => (ls, some e)
  | Except.ok (secComm1, ddlLogs) =>
    let pending1 :=
      if hasTable ls.secComm t then ls.pending else setTable ls.pending t []
    let ls1 : LoopState :=
      { ls with secComm := secComm1, pending := pending1,
                logs := ls.logs ++ ddlLogs }
    match lookupTable primary t with
    | none => (ls1, some (DBError.noSuchTable t))
    | some primaryRows =>
      if f.selectPrimary t then (ls1, some (DBError.selectFailed t))
      else if f.deleteSec t then (ls1, some (DBError.deleteFailed t))
      else
        let pending2 := setTable ls1.pending t []
        match insertRows f t [] primaryRows with
        | (accRows, some e) =>
          ({ ls1 with pending := setTable pending2 t accRows }, some e)
        | (accRows, none) =>
          let tr := update_sync_tracking f t ls1.tracking ls1.clock ls1.sess
          ({ ls1 with pending := setTable pending2 t accRows,
                      tracking := tr.tracking, clock := tr.clock,
                      sess := tr.sess, logs := ls1.logs ++ tr.logs }, none)

/-- The `for table_name in table_names` loop: runs `syncOneTable` over the
list, stopping at the first raised error. -/
def syncLoop (f : Faults) (primary : Tables) :
    List TableName → LoopState → LoopState × Option DBError
  | [], ls => (ls, none)
  | t :: ts, ls =>
    match syncOneTable f primary t ls with
    | (ls1, some e) => (ls1, some e)
    | (ls1, none) => syncLoop f primary ts ls1

/-- Global state of the two databases plus clock and session balance. -/
structure SyncState where
  primary : Tables
  secTables : Tables
  tracking : List TrackingRecord
  clock : Nat
  sess : Nat
deriving DecidableEq

/-- Loop state at entry of `sync_table_changes`: the main session's pending
view starts as a snapshot of the committed destination; two sessions (one
per side) have just been opened. -/
def initLoop (st : SyncState) : LoopState :=
  { secComm := st.secTables, pending := st.secTables, tracking := st.tracking,
    clock := st.clock, sess := st.sess + 2, logs := [] }

/-- The body of the `try` in `sync_table_changes`: the per-table loop
followed by the single commit of the main session (line 111), which itself
can fail. Returns the loop state reached and the raised error, if any. -/
def sync_attempt (f : Faults) (names : List TableName) (st : SyncState) :
    LoopState × Option DBError :=
  match syncLoop f st.primary names (initLoop st) with
  | (ls, some e) => (ls, some e)
  | (ls, none) =>
    if f.commitMain then (ls, some DBError.commitFailed) else (ls, none)

/-- src/main.py lines 92-118, `sync_table_changes`: open one session per
side, run the loop and commit once after the last table; on success the
pending view becomes the committed destination; on any error the main
session rolls back (pending discarded, committed destination kept — note
DDL and the per-table tracking commits have already landed) and the error
becomes a log line. The `finally` closes both sessions on either path. The
function never raises and returns no success indication. -/
def sync_table_changes (f : Faults) (names : List TableName)
    (st : SyncState) : SyncState × List LogEntry :=
  match sync_attempt f names st with
  | (ls, some e) =>
    ({ primary := st.primary, secTables := ls.secComm,
       tracking := ls.tracking, clock := ls.clock, sess := ls.sess - 2 },
     ls.logs ++ [LogEntry.errSync names e])
  | (ls, none) =>
    ({ primary := st.primary, secTables := ls.pending,
       tracking := ls.tracking, clock := ls.clock, sess := ls.sess - 2 },
     ls.logs ++ [LogEntry.infoSyncOk names])

/-- src/main.py lines 50-61, `is_first_run`: opens a destination session,
selects all tracking records and reports whether none exist; any read error
is logged and answered with `true`; the `finally` closes the session.
Returns (answer, session balance, logs). -/
def is_first_run (f : Faults) (tracking : List TrackingRecord) (sess : Nat) :
    Bool × Nat × List LogEntry :=
  let s1 := sess + 1
  if f.trackingRead then (true, s1 - 1, [LogEntry.errFirstRunCheck])
  else (decide (tracking.length = 0), s1 - 1, [])

/-- src/main.py lines 149-153: the per-table setup loop's log lines. -/
def setupLogs (primary : Tables) : List TableName → List LogEntry
  | [] => []
  | t :: ts =>
    (if hasTable primary t then LogEntry.infoSetup t
     else LogEntry.errMissingInPrimary t) :: setupLogs primary ts

/-- src/main.py lines 133-155, the `__main__` block: after reflecting both
schemas and ensuring the tracking table exists (the model keeps the tracking
table always present), check `is_first_run`; only on a first run is
`sync_table_changes` invoked, with the full requested list; otherwise only a
log line is emitted. Then the per-table setup messages are logged. -/
def main_bootstrap (f : Faults) (tables_to_sync : List TableName)
    (st : SyncState) : SyncState × List LogEntry :=
  let fr := is_first_run f st.tracking st.sess
  let st1 : SyncState := { st with sess := fr.2.1 }
  if fr.1 then
    match sync_table_changes f tables_to_sync st1 with
    | (st2, syncLogs) =>
      (st2, fr.2.2 ++ [LogEntry.infoFirstRun] ++ syncLogs
        ++ setupLogs st.primary tables_to_sync ++ [LogEntry.infoSetupComplete])
  else
    (st1, fr.2.2 ++ [LogEntry.infoNotFirstRun]
      ++ setupLogs st.primary tables_to_sync ++ [LogEntry.infoSetupComplete])

/-- Fault scenario in which every data statement succeeds but the commit of
the tracking session always fails (a `TrackingWriteError` environment). -/
def trackingFailFaults : Faults :=
  { noFaults with trackingCommit := fun _ => true }

/-- The tracking records carrying a given table name (observer used to state
the one-record-per-name invariant). -/
def recordsFor : List TrackingRecord → TableName → List TrackingRecord
  | [], _ => []
  | r :: rs, t =>
    if r.table_name = t then r :: recordsFor rs t else recordsFor rs t

/-- `N` consecutive successful tracking upserts for table `t` (the tracking
write of `N` successful syncs), threading tracking table and clock. -/
def iterTracking (t : TableName) :
    Nat → List TrackingRecord × Nat → List TrackingRecord × Nat
  | 0, s => s
  | n + 1, (tr, ck) =>
    let r := update_sync_tracking noFaults t tr ck 0
    iterTracking t n (r.tracking, r.clock)

/-- A source row used in concrete scenarios. -/
def rowA : Row := [("id", 1)]

/-- A stale destination row used in concrete scenarios. -/
def rowOld : Row := [("id", 7)]

/-- A source row of table `c` used in concrete scenarios. -/
def rowC : Row := [("id", 3)]

/-- Concrete scenario: source has table `a` only; destination already holds
a stale row in `a`; table `b` is absent from the source. -/
def exStBatch : SyncState :=
  { primary := [("a", [rowA])], secTables := [("a", [rowOld])],
    tracking := [], clock := 0, sess := 0 }

/-- Concrete scenario: source has tables `a` and `c` (with rows), `b` is
absent; both destination tables exist and are empty. -/
def exStThree : SyncState :=
  { primary := [("a", [rowA]), ("c", [rowC])],
    secTables := [("a", []), ("c", [])], tracking := [], clock := 0,
    sess := 0 }

/-- Concrete scenario: the tracking table is non-empty (not a first run) and
the destination table `t` is stale with respect to the source. -/
def exStNotFirst : SyncState :=
  { primary := [("t", [rowA])], secTables := [("t", [])],
    tracking := [{ table_name := "t", last_synced_at := 0 }], clock := 1,
    sess := 0 }

/-! ## Association-list lemmas -/

theorem lookupTable_setTable_self (m : Tables) (t : TableName)
    (rows : List Row) : lookupTable (setTable m t rows) t = some rows := by
  induction m with
  | nil => simp [setTable, lookupTable]
  | cons p rest ih =>
    obtain ⟨n, rs⟩ := p
    by_cases h : n = t
    · simp [setTable, lookupTable, h]
    · simp [setTable, lookupTable, h, ih]

theorem lookupTable_setTable_of_ne {t u : TableName} (h : t ≠ u)
    (m : Tables) (rows : List Row) :
    lookupTable (setTable m t rows) u = lookupTable m u := by
  induction m with
  | nil => simp [setTable, lookupTable, h]
  | cons p rest ih =>
    obtain ⟨n, rs⟩ := p
    by_cases hn : n = t
    · subst hn
      simp [setTable, lookupTable, h]
    · simp [setTable, lookupTable, hn, ih]

theorem setTable_setTable_self (m : Tables) (t : TableName)
    (rows1 rows2 : List Row) :
    setTable (setTable m t rows1) t rows2 = setTable m t rows2 := by
  induction m with
  | nil => simp [setTable]
  | cons p rest ih =>
    obtain ⟨n, rs⟩ := p
    by_cases hn : n = t
    · simp [setTable, hn]
    · simp [setTable, hn, ih]

theorem hasTable_setTable_self (m : Tables) (t : TableName)
    (rows : List Row) : hasTable (setTable m t rows) t = true := by
  simp [hasTable, lookupTable_setTable_self]

/-! ## Lemmas about the row-insert loop -/

theorem insertRows_ok (f : Faults) (t : TableName) (rows : List Row) :
    ∀ acc res, insertRows f t acc rows = (res, none) → res = acc ++ rows := by
  induction rows with
  | nil =>
    intro acc res h
    simp [insertRows] at h
    simp [h]
  | cons r rs ih =>
    intro acc res h
    by_cases hf : f.insertSec t r
    · simp [insertRows, hf] at h
    · simp only [insertRows, hf, Bool.false_eq_true, if_false] at h
      have := ih (acc ++ [r]) res h
      simp [this]

theorem insertRows_noFault (f : Faults) (t : TableName)
    (hf : ∀ r, f.insertSec t r = false) (rows : List Row) :
    ∀ acc, insertRows f t acc rows = (acc ++ rows, none) := by
  induction rows with
  | nil => intro acc; simp [insertRows]
  | cons r rs ih =>
    intro acc
    simp only [insertRows, hf r, Bool.false_eq_true, if_false, ih]
    simp

theorem insertRows_noFaults_eq (t : TableName) (acc rows : List Row) :
    insertRows noFaults t acc rows = (acc ++ rows, none) :=
  insertRows_noFault noFaults t (fun _ => rfl) rows acc

theorem insertRows_trackingFail_eq (t : TableName) (acc rows : List Row) :
    insertRows trackingFailFaults t acc rows = (acc ++ rows, none) :=
  insertRows_noFault trackingFailFaults t (fun _ => rfl) rows acc

/-! ## Lemmas about the tracking upsert -/

theorem update_sync_tracking_sess (f : Faults) (t : TableName)
    (tr : List TrackingRecord) (ck s : Nat) :
    (update_sync_tracking f t tr ck s).sess = s := by
  unfold update_sync_tracking
  by_cases h1 : f.trackingSelect t <;> by_cases h2 : f.trackingWrite t <;>
    by_cases h3 : f.trackingCommit t <;> simp [h1, h2, h3]

theorem update_noFaults_eq (t : TableName) (tr : List TrackingRecord)
    (ck s : Nat) :
    update_sync_tracking noFaults t tr ck s
      = { tracking := upsertTracking tr t ck, clock := ck + 1, sess := s,
          logs := [LogEntry.infoTrackingUpdated t] } := by
  simp [update_sync_tracking, noFaults]

theorem update_trackingFail_eq (t : TableName) (tr : List TrackingRecord)
    (ck s : Nat) :
    update_sync_tracking trackingFailFaults t tr ck s
      = { tracking := tr, clock := ck + 1, sess := s,
          logs := [LogEntry.errTracking t (DBError.trackingCommitFailed t)] } := by
  simp [update_sync_tracking, trackingFailFaults, noFaults]

/-! ## Lemmas about one iteration of the sync loop -/

theorem syncOneTable_sess (f : Faults) (primary : Tables) (t : TableName)
    (ls : LoopState) : (syncOneTable f primary t ls).1.sess = ls.sess := by
  cases h1 : create_table_if_not_exists f primary ls.secComm t with
  | error e => simp [syncOneTable, h1]
  | ok pr =>
    obtain ⟨sc1, dl⟩ := pr
    cases h2 : lookupTable primary t with
    | none => simp [syncOneTable, h1, h2]
    | some primaryRows =>
      by_cases h3 : f.selectPrimary t
      · simp [syncOneTable, h1, h2, h3]
      · by_cases h4 : f.deleteSec t
        · simp [syncOneTable, h1, h2, h3, h4]
        · cases h5 : insertRows f t [] primaryRows with
          | mk accRows e2 =>
            cases e2 with
            | some e => simp [syncOneTable, h1, h2, h3, h4, h5]
            | none =>
              simp [syncOneTable, h1, h2, h3, h4, h5,
                update_sync_tracking_sess]

theorem syncOneTable_pending_frame (f : Faults) (primary : Tables)
    (t : TableName) (ls : LoopState) {u : TableName} (hu : u ≠ t) :
    lookupTable (syncOneTable f primary t ls).1.pending u
      = lookupTable ls.pending u := by
  have hne : t ≠ u := Ne.symm hu
  cases h1 : create_table_if_not_exists f primary ls.secComm t with
  | error e => simp [syncOneTable, h1]
  | ok pr =>
    obtain ⟨sc1, dl⟩ := pr
    cases h2 : lookupTable primary t with
    | none =>
      simp [syncOneTable, h1, h2]
      split <;> simp [lookupTable_setTable_of_ne hne]
    | some primaryRows =>
      by_cases h3 : f.selectPrimary t
      · simp [syncOneTable, h1, h2, h3]
        split <;> simp [lookupTable_setTable_of_ne hne]
      · by_cases h4 : f.deleteSec t
        · simp [syncOneTable, h1, h2, h3, h4]
          split <;> simp [lookupTable_setTable_of_ne hne]
        · cases h5 : insertRows f t [] primaryRows with
          | mk accRows e2 =>
            cases e2 with
            | some e =>
              simp [syncOneTable, h1, h2, h3, h4, h5,
                lookupTable_setTable_of_ne hne]
              split <;> simp [lookupTable_setTable_of_ne hne]
            | none =>
              simp [syncOneTable, h1, h2, h3, h4, h5,
                lookupTable_setTable_of_ne hne]
              split <;> simp [lookupTable_setTable_of_ne hne]

theorem create_table_pres (f : Faults) (primary secComm : Tables)
    (t u : TableName) (rows : List Row)
    (h : lookupTable secComm u = some rows) (sc1 : Tables)
    (dl : List LogEntry)
    (hok : create_table_if_not_exists f primary secComm t
      = Except.ok (sc1, dl)) :
    lookupTable sc1 u = some rows := by
  unfold create_table_if_not_exists at hok
  by_cases hh : hasTable secComm t
  · simp [hh] at hok
    rw [← hok.1]
    exact h
  · cases hp : lookupTable primary t with
    | none => simp [hh, hp] at hok
    | some pr =>
      by_cases hd : f.createDDL t
      · simp [hh, hp, hd] at hok
      · simp [hh, hp, hd] at hok
        have hut : t ≠ u := by
          intro he
          subst he
          simp [hasTable, h] at hh
        rw [← hok.1]
        rw [lookupTable_setTable_of_ne hut]
        exact h

theorem syncOneTable_secComm_pres (f : Faults) (primary : Tables)
    (t : TableName) (ls : LoopState) (u : TableName) (rows : List Row)
    (h : lookupTable ls.secComm u = some rows) :
    lookupTable (syncOneTable f primary t ls).1.secComm u = some rows := by
  cases h1 : create_table_if_not_exists f primary ls.secComm t with
  | error e => simp [syncOneTable, h1, h]
  | ok pr =>
    obtain ⟨sc1, dl⟩ := pr
    have hpres := create_table_pres f primary ls.secComm t u rows h sc1 dl h1
    cases h2 : lookupTable primary t with
    | none => simp [syncOneTable, h1, h2, hpres]
    | some primaryRows =>
      by_cases h3 : f.selectPrimary t
      · simp [syncOneTable, h1, h2, h3, hpres]
      · by_cases h4 : f.deleteSec t
        · simp [syncOneTable, h1, h2, h3, h4, hpres]
        · cases h5 : insertRows f t [] primaryRows with
          | mk accRows e2 =>
            cases e2 with
            | some e => simp [syncOneTable, h1, h2, h3, h4, h5, hpres]
            | none => simp [syncOneTable, h1, h2, h3, h4, h5, hpres]

theorem syncOneTable_ok_pending (f : Faults) (primary : Tables)
    (t : TableName) (ls ls1 : LoopState)
    (h : syncOneTable f primary t ls = (ls1, none)) :
    lookupTable ls1.pending t = lookupTable primary t := by
  cases h1 : create_table_if_not_exists f primary ls.secComm t with
  | error e => simp [syncOneTable, h1] at h
  | ok pr =>
    obtain ⟨sc1, dl⟩ := pr
    cases h2 : lookupTable primary t with
    | none => simp [syncOneTable, h1, h2] at h
    | some primaryRows =>
      by_cases h3 : f.selectPrimary t
      · simp [syncOneTable, h1, h2, h3] at h
      · by_cases h4 : f.deleteSec t
        · simp [syncOneTable, h1, h2, h3, h4] at h
        · cases h5 : insertRows f t [] primaryRows with
          | mk accRows e2 =>
            cases e2 with
            | some e => simp [syncOneTable, h1, h2, h3, h4, h5] at h
            | none =>
              have hacc : accRows = primaryRows := by
                simpa using insertRows_ok f t primaryRows [] accRows h5
              simp only [syncOneTable, h1, h2, h3, h4, h5,
                Bool.false_eq_true, if_false] at h
              have h6 := congrArg Prod.fst h
              dsimp only at h6
              rw [← h6]
              simp [lookupTable_setTable_self, hacc]

theorem syncOneTable_ok_of (f : Faults) (primary : Tables) (t : TableName)
    (ls : LoopState) (h1 : f.createDDL t = false)
    (h2 : f.selectPrimary t = false) (h3 : f.deleteSec t = false)
    (h4 : ∀ r, f.insertSec t r = false)
    (h5 : hasTable primary t = true) :
    (syncOneTable f primary t ls).2 = none := by
  obtain ⟨rows, hrows⟩ := Option.isSome_iff_exists.mp h5
  have hcr : ∃ sc1 dl, create_table_if_not_exists f primary ls.secComm t
      = Except.ok (sc1, dl) := by
    unfold create_table_if_not_exists
    by_cases hh : hasTable ls.secComm t
    · exact ⟨ls.secComm, [], by simp [hh]⟩
    · exact ⟨setTable ls.secComm t [], [LogEntry.infoTableCreated t],
        by simp [hh, hrows, h1]⟩
  obtain ⟨sc1, dl, hok⟩ := hcr
  simp [syncOneTable, hok, hrows, h2, h3, insertRows_noFault f t h4 rows]

theorem syncOneTable_logs (f : Faults) (primary : Tables) (t : TableName)
    (ls : LoopState) :
    ∃ suf, (syncOneTable f primary t ls).1.logs = ls.logs ++ suf := by
  cases h1 : create_table_if_not_exists f primary ls.secComm t with
  | error e => exact ⟨[], by simp [syncOneTable, h1]⟩
  | ok pr =>
    obtain ⟨sc1, dl⟩ := pr
    cases h2 : lookupTable primary t with
    | none => exact ⟨dl, by simp [syncOneTable, h1, h2]⟩
    | some primaryRows =>
      by_cases h3 : f.selectPrimary t
      · exact ⟨dl, by simp [syncOneTable, h1, h2, h3]⟩
      · by_cases h4 : f.deleteSec t
        · exact ⟨dl, by simp [syncOneTable, h1, h2, h3, h4]⟩
        · cases h5 : insertRows f t [] primaryRows with
          | mk accRows e2 =>
            cases e2 with
            | some e => exact ⟨dl, by simp [syncOneTable, h1, h2, h3, h4, h5]⟩
            | none =>
              refine ⟨dl ++ (update_sync_tracking f t ls.tracking ls.clock
                ls.sess).logs, ?_⟩
              simp [syncOneTable, h1, h2, h3, h4, h5]

theorem syncOneTable_tracking (f : Faults) (primary : Tables)
    (t : TableName) (ls : LoopState) :
    (syncOneTable f primary t ls).1.tracking = ls.tracking ∨
      (syncOneTable f primary t ls).1.tracking
        = (update_sync_tracking f t ls.tracking ls.clock ls.sess).tracking := by
  cases h1 : create_table_if_not_exists f primary ls.secComm t with
  | error e => exact Or.inl (by simp [syncOneTable, h1])
  | ok pr =>
    obtain ⟨sc1, dl⟩ := pr
    cases h2 : lookupTable primary t with
    | none => exact Or.inl (by simp [syncOneTable, h1, h2])
    | some primaryRows =>
      by_cases h3 : f.selectPrimary t
      · exact Or.inl (by simp [syncOneTable, h1, h2, h3])
      · by_cases h4 : f.deleteSec t
        · exact Or.inl (by simp [syncOneTable, h1, h2, h3, h4])
        · cases h5 : insertRows f t [] primaryRows with
          | mk accRows e2 =>
            cases e2 with
            | some e =>
              exact Or.inl (by simp [syncOneTable, h1, h2, h3, h4, h5])
            | none =>
              exact Or.inr (by simp [syncOneTable, h1, h2, h3, h4, h5])

theorem syncOneTable_missing_state (f : Faults) (primary : Tables)
    (t : TableName) (ls : LoopState)
    (hp : lookupTable primary t = none) :
    (syncOneTable f primary t ls).1.secComm = ls.secComm ∧
      (syncOneTable f primary t ls).2 = some (DBError.noSuchTable t) := by
  by_cases hh : hasTable ls.secComm t
  · constructor <;>
      simp [syncOneTable, create_table_if_not_exists, hh, hp]
  · constructor <;>
      simp [syncOneTable, create_table_if_not_exists, hh, hp]

/-! ## Lemmas about the per-table loop -/

theorem syncLoop_sess (f : Faults) (primary : Tables)
    (names : List TableName) :
    ∀ ls, (syncLoop f primary names ls).1.sess = ls.sess := by
  induction names with
  | nil => intro ls; rfl
  | cons t ts ih =>
    intro ls
    have hs := syncOneTable_sess f primary t ls
    cases h : syncOneTable f primary t ls with
    | mk ls1 e2 =>
      rw [h] at hs
      dsimp only at hs
      cases e2 with
      | some e => simp [syncLoop, h, hs]
      | none => simp [syncLoop, h, ih ls1, hs]

theorem syncLoop_secComm_pres (f : Faults) (primary : Tables)
    (names : List TableName) :
    ∀ ls u rows, lookupTable ls.secComm u = some rows →
      lookupTable (syncLoop f primary names ls).1.secComm u = some rows := by
  induction names with
  | nil => intro ls u rows h; exact h
  | cons t ts ih =>
    intro ls u rows hlk
    have hp := syncOneTable_secComm_pres f primary t ls u rows hlk
    cases h : syncOneTable f primary t ls with
    | mk ls1 e2 =>
      rw [h] at hp
      dsimp only at hp
      cases e2 with
      | some e => simpa [syncLoop, h] using hp
      | none =>
        have := ih ls1 u rows hp
        simpa [syncLoop, h] using this

theorem syncLoop_pending_frame (f : Faults) (primary : Tables)
    (names : List TableName) :
    ∀ ls u, u ∉ names →
      lookupTable (syncLoop f primary names ls).1.pending u
        = lookupTable ls.pending u := by
  induction names with
  | nil => intro ls u _; rfl
  | cons t ts ih =>
    intro ls u hu
    have hut : u ≠ t := fun he => hu (by simp [he])
    have hts : u ∉ ts := fun he => hu (List.mem_cons_of_mem t he)
    have hfr := syncOneTable_pending_frame f primary t ls hut
    cases h : syncOneTable f primary t ls with
    | mk ls1 e2 =>
      rw [h] at hfr
      dsimp only at hfr
      cases e2 with
      | some e => simpa [syncLoop, h] using hfr
      | none =>
        have := ih ls1 u hts
        simp [syncLoop, h]
        rw [this, hfr]

theorem syncLoop_ok_pending (f : Faults) (primary : Tables)
    (names : List TableName) :
    ∀ ls, (syncLoop f primary names ls).2 = none →
      ∀ t, t ∈ names →
        lookupTable (syncLoop f primary names ls).1.pending t
          = lookupTable primary t := by
  induction names with
  | nil =>
    intro ls _ t ht
    exact absurd ht (List.not_mem_nil t)
  | cons v ts ih =>
    intro ls hok t ht
    cases h : syncOneTable f primary v ls with
    | mk ls1 e2 =>
      cases e2 with
      | some e => simp [syncLoop, h] at hok
      | none =>
        have hok2 : (syncLoop f primary ts ls1).2 = none := by
          simpa [syncLoop, h] using hok
        by_cases hts : t ∈ ts
        · have := ih ls1 hok2 t hts
          simpa [syncLoop, h] using this
        · have htv : t = v := by
            rcases List.mem_cons.mp ht with h' | h'
            · exact h'
            · exact absurd h' hts
          subst htv
          have hst := syncOneTable_ok_pending f primary t ls ls1 h
          have hfr := syncLoop_pending_frame f primary ts ls1 t hts
          simp [syncLoop, h]
          rw [hfr, hst]

theorem syncLoop_ok_of (f : Faults) (primary : Tables)
    (hc : ∀ u, f.createDDL u = false) (hs : ∀ u, f.selectPrimary u = false)
    (hd : ∀ u, f.deleteSec u = false)
    (hi : ∀ u r, f.insertSec u r = false) (names : List TableName) :
    ∀ ls, (∀ u ∈ names, hasTable primary u = true) →
      (syncLoop f primary names ls).2 = none := by
  induction names with
  | nil => intro ls _; rfl
  | cons t ts ih =>
    intro ls hp
    have hok := syncOneTable_ok_of f primary t ls (hc t) (hs t) (hd t)
      (hi t) (hp t (by simp))
    cases h : syncOneTable f primary t ls with
    | mk ls1 e2 =>
      rw [h] at hok
      dsimp only at hok
      subst hok
      have := ih ls1 (fun u hu => hp u (List.mem_cons_of_mem t hu))
      simpa [syncLoop, h] using this

theorem syncLoop_logs (f : Faults) (primary : Tables)
    (names : List TableName) :
    ∀ ls, ∃ suf, (syncLoop f primary names ls).1.logs = ls.logs ++ suf := by
  induction names with
  | nil => intro ls; exact ⟨[], by simp [syncLoop]⟩
  | cons t ts ih =>
    intro ls
    obtain ⟨s1, hs1⟩ := syncOneTable_logs f primary t ls
    cases h : syncOneTable f primary t ls with
    | mk ls1 e2 =>
      rw [h] at hs1
      dsimp only at hs1
      cases e2 with
      | some e => exact ⟨s1, by simpa [syncLoop, h] using hs1⟩
      | none =>
        obtain ⟨s2, hs2⟩ := ih ls1
        refine ⟨s1 ++ s2, ?_⟩
        simp [syncLoop, h, hs2, hs1]

theorem syncLoop_trackingFail (primary : Tables) (names : List TableName) :
    ∀ ls, (syncLoop trackingFailFaults primary names ls).1.tracking
      = ls.tracking := by
  induction names with
  | nil => intro ls; rfl
  | cons t ts ih =>
    intro ls
    have htr := syncOneTable_tracking trackingFailFaults primary t ls
    cases h : syncOneTable trackingFailFaults primary t ls with
    | mk ls1 e2 =>
      rw [h] at htr
      dsimp only at htr
      have hls1 : ls1.tracking = ls.tracking := by
        rcases htr with h' | h'
        · exact h'
        · rw [h', update_trackingFail_eq]
      cases e2 with
      | some e => simpa [syncLoop, h] using hls1
      | none =>
        have := ih ls1
        simp [syncLoop, h]
        rw [this, hls1]

theorem syncLoop_missing (primary : Tables) (t : TableName)
    (hp : lookupTable primary t = none) (names : List TableName) :
    ∀ ls, t ∈ names → ∃ u, lookupTable primary u = none ∧
      (syncLoop noFaults primary names ls).2
        = some (DBError.noSuchTable u) := by
  induction names with
  | nil =>
    intro ls ht
    exact absurd ht (List.not_mem_nil t)
  | cons v ts ih =>
    intro ls ht
    cases hv : lookupTable primary v with
    | none =>
      refine ⟨v, hv, ?_⟩
      have hms := (syncOneTable_missing_state noFaults primary v ls hv).2
      cases h : syncOneTable noFaults primary v ls with
      | mk ls1 e2 =>
        rw [h] at hms
        dsimp only at hms
        subst hms
        simp [syncLoop, h]
    | some rows =>
      have htv : t ≠ v := by
        intro he
        rw [he, hv] at hp
        cases hp
      have hts : t ∈ ts := by
        rcases List.mem_cons.mp ht with h' | h'
        · exact absurd h' htv
        · exact h'
      have hok := syncOneTable_ok_of noFaults primary v ls rfl rfl rfl
        (fun _ => rfl) (by simp [hasTable, hv])
      cases h : syncOneTable noFaults primary v ls with
      | mk ls1 e2 =>
        rw [h] at hok
        dsimp only at hok
        subst hok
        have := ih ls1 hts
        simpa [syncLoop, h] using this

theorem syncOneTable_trackingFail_log (primary : Tables) (t : TableName)
    (ls : LoopState) (hp : hasTable primary t = true) :
    LogEntry.errTracking t (DBError.trackingCommitFailed t)
      ∈ (syncOneTable trackingFailFaults primary t ls).1.logs := by
  obtain ⟨rows, hrows⟩ := Option.isSome_iff_exists.mp hp
  have hcr : ∃ sc1 dl, create_table_if_not_exists trackingFailFaults primary
      ls.secComm t = Except.ok (sc1, dl) := by
    unfold create_table_if_not_exists
    by_cases hh : hasTable ls.secComm t
    · exact ⟨ls.secComm, [], by simp [hh]⟩
    · exact ⟨setTable ls.secComm t [], [LogEntry.infoTableCreated t],
        by simp [hh, hrows, trackingFailFaults, noFaults]⟩
  obtain ⟨sc1, dl, hok⟩ := hcr
  have hsel : trackingFailFaults.selectPrimary t = false := rfl
  have hdel : trackingFailFaults.deleteSec t = false := rfl
  simp [syncOneTable, hok, hrows, hsel, hdel,
    insertRows_trackingFail_eq, update_trackingFail_eq]

theorem syncLoop_errTracking_mem (primary : Tables)
    (names : List TableName) :
    ∀ ls, (∀ u ∈ names, hasTable primary u = true) →
      ∀ t, t ∈ names →
        LogEntry.errTracking t (DBError.trackingCommitFailed t)
          ∈ (syncLoop trackingFailFaults primary names ls).1.logs := by
  induction names with
  | nil =>
    intro ls _ t ht
    exact absurd ht (List.not_mem_nil t)
  | cons v ts ih =>
    intro ls hp t ht
    have hok := syncOneTable_ok_of trackingFailFaults primary v ls rfl rfl
      rfl (fun _ => rfl) (hp v (by simp))
    cases h : syncOneTable trackingFailFaults primary v ls with
    | mk ls1 e2 =>
      rw [h] at hok
      dsimp only at hok
      subst hok
      have hloop : syncLoop trackingFailFaults primary (v :: ts) ls
          = syncLoop trackingFailFaults primary ts ls1 := by
        simp [syncLoop, h]
      rw [hloop]
      by_cases hts : t ∈ ts
      · exact ih ls1 (fun u hu => hp u (List.mem_cons_of_mem v hu)) t hts
      · have htv : t = v := by
          rcases List.mem_cons.mp ht with h' | h'
          · exact h'
          · exact absurd h' hts
        subst htv
        have hmem : LogEntry.errTracking t (DBError.trackingCommitFailed t)
            ∈ ls1.logs := by
          have hm := syncOneTable_trackingFail_log primary t ls
            (hp t (by simp))
          rw [h] at hm
          exact hm
        obtain ⟨suf, hsuf⟩ := syncLoop_logs trackingFailFaults primary ts ls1
        rw [hsuf]
        exact List.mem_append.mpr (Or.inl hmem)

/-! ## Lemmas about the batch wrapper -/

theorem sync_attempt_fst (f : Faults) (names : List TableName)
    (st : SyncState) :
    (sync_attempt f names st).1
      = (syncLoop f st.primary names (initLoop st)).1 := by
  unfold sync_attempt
  cases h : syncLoop f st.primary names (initLoop st) with
  | mk ls e2 =>
    cases e2 with
    | some e => rfl
    | none => by_cases hc : f.commitMain <;> simp [hc]

theorem sync_attempt_ok_loop (f : Faults) (names : List TableName)
    (st : SyncState) (h : (sync_attempt f names st).2 = none) :
    (syncLoop f st.primary names (initLoop st)).2 = none := by
  unfold sync_attempt at h
  cases hh : syncLoop f st.primary names (initLoop st) with
  | mk ls e2 =>
    rw [hh] at h
    cases e2 with
    | some e => exact absurd h (by simp)
    | none => rfl

theorem sync_attempt_of_loop_err (f : Faults) (names : List TableName)
    (st : SyncState) (e : DBError)
    (h : (syncLoop f st.primary names (initLoop st)).2 = some e) :
    (sync_attempt f names st).2 = some e := by
  unfold sync_attempt
  cases hh : syncLoop f st.primary names (initLoop st) with
  | mk ls e2 =>
    rw [hh] at h
    dsimp only at h
    subst h
    rfl

theorem sync_table_changes_of_err (f : Faults) (names : List TableName)
    (st : SyncState) (e : DBError)
    (h : (sync_attempt f names st).2 = some e) :
    sync_table_changes f names st
      = ({ primary := st.primary,
           secTables := (sync_attempt f names st).1.secComm,
           tracking := (sync_attempt f names st).1.tracking,
           clock := (sync_attempt f names st).1.clock,
           sess := (sync_attempt f names st).1.sess - 2 },
         (sync_attempt f names st).1.logs ++ [LogEntry.errSync names e]) := by
  unfold sync_table_changes
  cases hh : sync_attempt f names st with
  | mk ls e2 =>
    rw [hh] at h
    dsimp only at h
    subst h
    rfl

theorem sync_table_changes_of_ok (f : Faults) (names : List TableName)
    (st : SyncState) (h : (sync_attempt f names st).2 = none) :
    sync_table_changes f names st
      = ({ primary := st.primary,
           secTables := (sync_attempt f names st).1.pending,
           tracking := (sync_attempt f names st).1.tracking,
           clock := (sync_attempt f names st).1.clock,
           sess := (sync_attempt f names st).1.sess - 2 },
         (sync_attempt f names st).1.logs ++ [LogEntry.infoSyncOk names]) := by
  unfold sync_table_changes
  cases hh : sync_attempt f names st with
  | mk ls e2 =>
    rw [hh] at h
    dsimp only at h
    subst h
    rfl

theorem sync_primary_pres (f : Faults) (names : List TableName)
    (st : SyncState) :
    (sync_table_changes f names st).1.primary = st.primary := by
  unfold sync_table_changes
  cases h : sync_attempt f names st with
  | mk ls e2 => cases e2 <;> rfl

theorem sync_rollback_pres (f : Faults) (names : List TableName)
    (st : SyncState) (e : DBError)
    (h : (sync_attempt f names st).2 = some e) (a : TableName)
    (rows : List Row) (ha : lookupTable st.secTables a = some rows) :
    lookupTable (sync_table_changes f names st).1.secTables a = some rows := by
  rw [sync_table_changes_of_err f names st e h]
  dsimp only
  rw [sync_attempt_fst]
  exact syncLoop_secComm_pres f st.primary names (initLoop st) a rows ha

theorem sync_ok_mirror (f : Faults) (names : List TableName)
    (st : SyncState) (h : (sync_attempt f names st).2 = none)
    (t : TableName) (ht : t ∈ names) :
    lookupTable (sync_table_changes f names st).1.secTables t
      = lookupTable st.primary t := by
  rw [sync_table_changes_of_ok f names st h]
  dsimp only
  rw [sync_attempt_fst]
  exact syncLoop_ok_pending f st.primary names (initLoop st)
    (sync_attempt_ok_loop f names st h) t ht

/-! ## Closed forms of a fault-free single-table sync -/

theorem noFaults_createDDL (t : TableName) : noFaults.createDDL t = false :=
  rfl

theorem noFaults_selectPrimary (t : TableName) :
    noFaults.selectPrimary t = false := rfl

theorem noFaults_deleteSec (t : TableName) : noFaults.deleteSec t = false :=
  rfl

theorem noFaults_commitMain : noFaults.commitMain = false := rfl

theorem syncOneTable_noFaults_pending (primary : Tables) (t : TableName)
    (ls : LoopState) (rows : List Row)
    (hp : lookupTable primary t = some rows) :
    (syncOneTable noFaults primary t ls).1.pending
        = setTable ls.pending t rows
      ∧ (syncOneTable noFaults primary t ls).2 = none := by
  by_cases hh : hasTable ls.secComm t
  · constructor <;>
      simp [syncOneTable, create_table_if_not_exists, hh, hp,
        noFaults_createDDL, noFaults_selectPrimary, noFaults_deleteSec,
        insertRows_noFaults_eq, setTable_setTable_self]
  · constructor <;>
      simp [syncOneTable, create_table_if_not_exists, hh, hp,
        noFaults_createDDL, noFaults_selectPrimary, noFaults_deleteSec,
        insertRows_noFaults_eq, setTable_setTable_self]

theorem sync_noFaults_single_some (st : SyncState) (T : TableName)
    (rows : List Row) (hp : lookupTable st.primary T = some rows) :
    (sync_table_changes noFaults [T] st).1.secTables
      = setTable st.secTables T rows := by
  have hstep := syncOneTable_noFaults_pending st.primary T (initLoop st)
    rows hp
  cases h : syncOneTable noFaults st.primary T (initLoop st) with
  | mk ls1 e2 =>
    rw [h] at hstep
    dsimp only at hstep
    obtain ⟨hpend, hnone⟩ := hstep
    subst hnone
    have hloop : syncLoop noFaults st.primary [T] (initLoop st)
        = (ls1, none) := by
      simp [syncLoop, h]
    have hatt : sync_attempt noFaults [T] st = (ls1, none) := by
      simp [sync_attempt, hloop, noFaults_commitMain]
    simp [sync_table_changes, hatt]
    exact hpend

theorem sync_noFaults_single_none (st : SyncState) (T : TableName)
    (hp : lookupTable st.primary T = none) :
    (sync_table_changes noFaults [T] st).1.secTables = st.secTables := by
  have hstep := syncOneTable_missing_state noFaults st.primary T
    (initLoop st) hp
  cases h : syncOneTable noFaults st.primary T (initLoop st) with
  | mk ls1 e2 =>
    rw [h] at hstep
    dsimp only at hstep
    obtain ⟨hsec, herr⟩ := hstep
    subst herr
    have hloop : syncLoop noFaults st.primary [T] (initLoop st)
        = (ls1, some (DBError.noSuchTable T)) := by
      simp [syncLoop, h]
    have hatt : sync_attempt noFaults [T] st
        = (ls1, some (DBError.noSuchTable T)) := by
      simp [sync_attempt, hloop]
    simp [sync_table_changes, hatt]
    exact hsec

/-! ## Lemmas about the tracking one-record invariant -/

theorem recordsFor_any_false (tr : List TrackingRecord) (t : TableName)
    (h : recordsFor tr t = []) :
    tr.any (fun r => decide (r.table_name = t)) = false := by
  induction tr with
  | nil => rfl
  | cons r rs ih =>
    by_cases hr : r.table_name = t
    · simp [recordsFor, hr] at h
    · simp only [recordsFor, hr, if_false] at h
      simp [List.any_cons, hr, ih h]

theorem recordsFor_any_true (tr : List TrackingRecord) (t : TableName)
    (h : recordsFor tr t ≠ []) :
    tr.any (fun r => decide (r.table_name = t)) = true := by
  induction tr with
  | nil => simp [recordsFor] at h
  | cons r rs ih =>
    by_cases hr : r.table_name = t
    · simp [List.any_cons, hr]
    · simp only [recordsFor, hr, if_false] at h
      simp [List.any_cons, ih h]

theorem recordsFor_append (tr1 tr2 : List TrackingRecord) (t : TableName) :
    recordsFor (tr1 ++ tr2) t = recordsFor tr1 t ++ recordsFor tr2 t := by
  induction tr1 with
  | nil => simp [recordsFor]
  | cons r rs ih =>
    by_cases hr : r.table_name = t <;> simp [recordsFor, hr, ih]

theorem upsertTracking_fresh (tr : List TrackingRecord) (t : TableName)
    (now : Nat) (h : recordsFor tr t = []) :
    upsertTracking tr t now
      = tr ++ [{ table_name := t, last_synced_at := now }] := by
  unfold upsertTracking
  rw [recordsFor_any_false tr t h]
  simp

theorem recordsFor_update (tr : List TrackingRecord) (t : TableName)
    (now : Nat) :
    recordsFor (tr.map (fun r =>
        if r.table_name = t then { r with last_synced_at := now } else r)) t
      = List.replicate (recordsFor tr t).length
          { table_name := t, last_synced_at := now } := by
  induction tr with
  | nil => rfl
  | cons r rs ih =>
    obtain ⟨rn, rl⟩ := r
    by_cases hr : rn = t
    · subst hr
      simp [recordsFor, ih, List.replicate_succ]
    · simp [recordsFor, hr, ih]

theorem recordsFor_upsert_single (tr : List TrackingRecord) (t : TableName)
    (now : Nat) (r : TrackingRecord) (h : recordsFor tr t = [r]) :
    recordsFor (upsertTracking tr t now) t
      = [{ table_name := t, last_synced_at := now }] := by
  unfold upsertTracking
  rw [recordsFor_any_true tr t (by simp [h])]
  rw [if_pos rfl]
  rw [recordsFor_update, h]
  simp

theorem iterTracking_succ (t : TableName) (n : Nat)
    (tr : List TrackingRecord) (ck : Nat) :
    iterTracking t (n + 1) (tr, ck)
      = iterTracking t n ((update_sync_tracking noFaults t tr ck 0).tracking,
          (update_sync_tracking noFaults t tr ck 0).clock) := rfl

theorem iterTracking_single (t : TableName) (n : Nat) :
    ∀ (tr : List TrackingRecord) (ck : Nat) (r : TrackingRecord),
      recordsFor tr t = [r] →
      recordsFor (iterTracking t (n + 1) (tr, ck)).1 t
        = [{ table_name := t, last_synced_at := ck + n }] := by
  induction n with
  | zero =>
    intro tr ck r h
    rw [iterTracking_succ, update_noFaults_eq]
    dsimp only
    simpa [iterTracking] using recordsFor_upsert_single tr t ck r h
  | succ m ih =>
    intro tr ck r h
    rw [iterTracking_succ, update_noFaults_eq]
    dsimp only
    have h1 : recordsFor (upsertTracking tr t ck) t
        = [{ table_name := t, last_synced_at := ck }] :=
      recordsFor_upsert_single tr t ck r h
    have h2 := ih (upsertTracking tr t ck) (ck + 1) _ h1
    have harith : ck + 1 + m = ck + (m + 1) := by omega
    rw [harith] at h2
    exact h2

/-! ## Claims -/

/-- C1, counterexample. Syncing the batch `["a", "b"]` fails (table `b` is
absent from the source) and the destination row sets are rolled back, yet
the tracking table has changed: the tracking update for `a` was committed by
its own session during the failed batch, contradicting the claim that the
per-table tracking updates happen in the one shared batch transaction and
are undone by the batch rollback. -/
theorem batch_failure_tracking_changed :
    (sync_attempt noFaults ["a", "b"] exStBatch).2
        = some (DBError.noSuchTable "b")
      ∧ (sync_table_changes noFaults ["a", "b"] exStBatch).1.tracking
        ≠ exStBatch.tracking := by decide

/-- C1, amended. The delete-then-reinsert of every table in the batch runs
in the one shared destination transaction committed once after the last
table, so on any error anywhere in the batch every destination table that
existed before the batch keeps exactly its previous rows; the per-table
tracking updates, however, commit in their own sessions and survive the
batch rollback. -/
theorem sync_failure_rolls_back_rows (f : Faults) (names : List TableName)
    (st : SyncState) (e : DBError)
    (h : (sync_attempt f names st).2 = some e) (a : TableName)
    (rows : List Row) (ha : lookupTable st.secTables a = some rows) :
    lookupTable (sync_table_changes f names st).1.secTables a = some rows :=
  sync_rollback_pres f names st e h a rows ha

/-- C1, witness: in the failed batch `["a", "b"]`, table `a` keeps its
pre-batch row. -/
theorem sync_failure_rolls_back_rows_witness :
    lookupTable (sync_table_changes noFaults ["a", "b"]
        exStBatch).1.secTables "a" = some [rowOld] :=
  sync_failure_rolls_back_rows noFaults ["a", "b"] exStBatch
    (DBError.noSuchTable "b") (by decide) "a" [rowOld] (by decide)

/-- C2. After a successful batch, every requested table's destination rows
are exactly the rows read from the source table, copied unchanged. -/
theorem sync_success_mirrors_source (f : Faults) (names : List TableName)
    (st : SyncState) (h : (sync_attempt f names st).2 = none)
    (t : TableName) (ht : t ∈ names) :
    lookupTable (sync_table_changes f names st).1.secTables t
      = lookupTable st.primary t :=
  sync_ok_mirror f names st h t ht

/-- C2, witness: a fault-free sync of `["a"]` leaves destination `a` equal
to source `a`. -/
theorem sync_success_mirrors_source_witness :
    lookupTable (sync_table_changes noFaults ["a"] exStBatch).1.secTables "a"
      = lookupTable exStBatch.primary "a" :=
  sync_success_mirrors_source noFaults ["a"] exStBatch (by decide) "a"
    (by decide)

/-- C3, counterexample. With a non-empty tracking table (not a first run)
the bootstrap does not invoke the synchronizer at all: its destination
differs from what the synchronizer invoked with the same list produces, so
the synchronizer is not invoked with the full requested list in the
not-first-run branch. -/
theorem bootstrap_not_first_run_no_sync :
    (main_bootstrap noFaults ["t"] exStNotFirst).1.secTables
      ≠ (sync_table_changes noFaults ["t"] exStNotFirst).1.secTables := by
  decide

/-- C3, amended. The bootstrap invokes the Table Synchronizer with the full
requested list only in the first-run branch; in the not-first-run branch no
synchronization is performed and the state is returned unchanged. -/
theorem bootstrap_sync_only_on_first_run (f : Faults)
    (names : List TableName) (st : SyncState) :
    (main_bootstrap f names st).1
      = if (is_first_run f st.tracking st.sess).1 = true
        then (sync_table_changes f names st).1 else st := by
  have hsess : (is_first_run f st.tracking st.sess).2.1 = st.sess := by
    unfold is_first_run
    by_cases h : f.trackingRead <;> simp [h]
  have hst1 : ({ st with sess := (is_first_run f st.tracking st.sess).2.1 }
      : SyncState) = st := by
    rw [hsess]
  unfold main_bootstrap
  by_cases h : (is_first_run f st.tracking st.sess).1 <;> simp [h, hst1]

/-- C4. A fault-free `sync_table_changes` over a single table is
idempotent: a second run against the unchanged source leaves the
destination row sets identical to those after the first run. -/
theorem sync_tables_idempotent (T : TableName) (st : SyncState) :
    (sync_table_changes noFaults [T]
        (sync_table_changes noFaults [T] st).1).1.secTables
      = (sync_table_changes noFaults [T] st).1.secTables := by
  have hprim := sync_primary_pres noFaults [T] st
  cases hp : lookupTable st.primary T with
  | none =>
    exact sync_noFaults_single_none (sync_table_changes noFaults [T] st).1 T
      (by rw [hprim]; exact hp)
  | some rows =>
    have h1 := sync_noFaults_single_some st T rows hp
    have h2 := sync_noFaults_single_some (sync_table_changes noFaults [T]
      st).1 T rows (by rw [hprim]; exact hp)
    rw [h2, h1, setTable_setTable_self]

/-- C5. Starting from a tracking table with no record for `t`, after
`N ≥ 1` successful tracking upserts exactly one record for `t` exists, and
its `last_synced_at` is the timestamp taken during the most recent call. -/
theorem tracking_upsert_unique (t : TableName) (N : Nat)
    (tr : List TrackingRecord) (ck : Nat) (h0 : recordsFor tr t = [])
    (hN : 1 ≤ N) :
    recordsFor (iterTracking t N (tr, ck)).1 t
      = [{ table_name := t, last_synced_at := ck + N - 1 }] := by
  obtain ⟨M, rfl⟩ : ∃ M, N = M + 1 := ⟨N - 1, by omega⟩
  cases M with
  | zero =>
    rw [iterTracking_succ, update_noFaults_eq]
    dsimp only
    simp [iterTracking, upsertTracking_fresh tr t ck h0, recordsFor_append,
      h0, recordsFor]
  | succ K =>
    rw [iterTracking_succ, update_noFaults_eq]
    dsimp only
    have h1 : recordsFor (upsertTracking tr t ck) t
        = [{ table_name := t, last_synced_at := ck }] := by
      rw [upsertTracking_fresh tr t ck h0, recordsFor_append, h0]
      simp [recordsFor]
    have h2 := iterTracking_single t K (upsertTracking tr t ck) (ck + 1) _ h1
    have harith : ck + 1 + K = ck + (K + 1 + 1) - 1 := by omega
    rw [harith] at h2
    exact h2

/-- C5, witness: two successful upserts for `users` starting from an empty
tracking table at clock 5 leave exactly one record, stamped with the second
call's timestamp. -/
theorem tracking_upsert_unique_witness :
    recordsFor (iterTracking "users" 2 ([], 5)).1 "users"
      = [{ table_name := "users", last_synced_at := 6 }] :=
  tracking_upsert_unique "users" 2 [] 5 (by decide) (by decide)

/-- C6. `is_first_run` answers `true` exactly when the tracking read fails
or the tracking table is empty, and (being a total function into `Bool`)
never propagates the read error. -/
theorem first_run_detection (f : Faults) (tr : List TrackingRecord)
    (s : Nat) :
    (is_first_run f tr s).1 = true
      ↔ (f.trackingRead = true ∨ tr = []) := by
  unfold is_first_run
  by_cases h : f.trackingRead <;> simp [h, List.length_eq_zero]

/-- C7, counterexample. Requesting `["a", "b", "c"]` where `b` is absent
from the source but `a` and `c` exist: after the call, destination `c` is
still empty although the source holds a row for it — the missing table did
not abort "that table only"; the other requested tables were not
synchronized. -/
theorem missing_table_blocks_other_tables :
    lookupTable (sync_table_changes noFaults ["a", "b", "c"]
        exStThree).1.secTables "c" = some []
      ∧ lookupTable exStThree.primary "c" = some [rowC]
      ∧ lookupTable exStThree.primary "b" = none := by decide

/-- C7, amended. A requested table absent from the source schema aborts the
whole batch, not just that table: the error (naming a missing table and the
batch) is logged rather than crashing the process, and every destination
table that existed before the call keeps its previous rows — the other
requested tables are not synchronized by that call. -/
theorem missing_table_aborts_whole_batch (names : List TableName)
    (st : SyncState) (t : TableName) (ht : t ∈ names)
    (hp : lookupTable st.primary t = none) :
    (∃ u, lookupTable st.primary u = none ∧
        LogEntry.errSync names (DBError.noSuchTable u)
          ∈ (sync_table_changes noFaults names st).2)
      ∧ ∀ a rows, lookupTable st.secTables a = some rows →
          lookupTable (sync_table_changes noFaults names st).1.secTables a
            = some rows := by
  obtain ⟨u, hu, herr⟩ :=
    syncLoop_missing st.primary t hp names (initLoop st) ht
  have hatt := sync_attempt_of_loop_err noFaults names st
    (DBError.noSuchTable u) herr
  constructor
  · refine ⟨u, hu, ?_⟩
    rw [sync_table_changes_of_err noFaults names st _ hatt]
    simp
  · intro a rows ha
    exact sync_rollback_pres noFaults names st _ hatt a rows ha

/-- C7, witness: in the batch `["a", "b", "c"]` with `b` missing, the
pre-existing empty destination table `a` keeps its (empty) row set. -/
theorem missing_table_aborts_whole_batch_witness :
    lookupTable (sync_table_changes noFaults ["a", "b", "c"]
        exStThree).1.secTables "a" = some [] :=
  (missing_table_aborts_whole_batch ["a", "b", "c"] exStThree "b"
    (by decide) (by decide)).2 "a" [] (by decide)

/-- C8. When the tracking commit fails for every table, each tracking
upsert is rolled back (the tracking table is unchanged), every failure is
reported as a log line, and the per-table sync loop continues past the
failures: all requested tables are still fully mirrored. -/
theorem tracking_failure_does_not_abort_batch (names : List TableName)
    (st : SyncState) (h : ∀ t ∈ names, hasTable st.primary t = true) :
    (sync_table_changes trackingFailFaults names st).1.tracking
        = st.tracking
      ∧ (∀ t ∈ names,
          lookupTable (sync_table_changes trackingFailFaults names
              st).1.secTables t = lookupTable st.primary t)
      ∧ ∀ t ∈ names,
          LogEntry.errTracking t (DBError.trackingCommitFailed t)
            ∈ (sync_table_changes trackingFailFaults names st).2 := by
  have hloop : (syncLoop trackingFailFaults st.primary names
      (initLoop st)).2 = none :=
    syncLoop_ok_of trackingFailFaults st.primary (fun _ => rfl)
      (fun _ => rfl) (fun _ => rfl) (fun _ _ => rfl) names (initLoop st) h
  have hatt : (sync_attempt trackingFailFaults names st).2 = none := by
    unfold sync_attempt
    cases hh : syncLoop trackingFailFaults st.primary names (initLoop st)
      with
    | mk ls e2 =>
      rw [hh] at hloop
      dsimp only at hloop
      subst hloop
      simp [show trackingFailFaults.commitMain = false from rfl]
  refine ⟨?_, ?_, ?_⟩
  · rw [sync_table_changes_of_ok trackingFailFaults names st hatt]
    dsimp only
    rw [sync_attempt_fst]
    exact syncLoop_trackingFail st.primary names (initLoop st)
  · intro t ht
    exact sync_ok_mirror trackingFailFaults names st hatt t ht
  · intro t ht
    rw [sync_table_changes_of_ok trackingFailFaults names st hatt]
    dsimp only
    rw [sync_attempt_fst]
    exact List.mem_append.mpr
      (Or.inl (syncLoop_errTracking_mem st.primary names (initLoop st) h
        t ht))

/-- C8, witness: with the tracking commit failing, syncing `["a"]` leaves
the tracking table unchanged. -/
theorem tracking_failure_does_not_abort_batch_witness :
    (sync_table_changes trackingFailFaults ["a"] exStBatch).1.tracking
      = exStBatch.tracking :=
  (tracking_failure_does_not_abort_batch ["a"] exStBatch (by decide)).1

/-- C9. Every operation releases the sessions it opened on every exit path:
the session balance returned by `is_first_run`, `update_sync_tracking` and
`sync_table_changes` equals the balance they started from, for every fault
configuration. -/
theorem sessions_released_on_all_paths (f : Faults)
    (tr : List TrackingRecord) (s ck : Nat) (t : TableName)
    (names : List TableName) (st : SyncState) :
    (is_first_run f tr s).2.1 = s
      ∧ (update_sync_tracking f t tr ck s).sess = s
      ∧ (sync_table_changes f names st).1.sess = st.sess := by
  refine ⟨?_, update_sync_tracking_sess f t tr ck s, ?_⟩
  · unfold is_first_run
    by_cases h : f.trackingRead <;> simp [h]
  · have hsess : (sync_attempt f names st).1.sess = st.sess + 2 := by
      rw [sync_attempt_fst, syncLoop_sess f st.primary names (initLoop st)]
      rfl
    unfold sync_table_changes
    cases hh : sync_attempt f names st with
    | mk ls e2 =>
      rw [hh] at hsess
      dsimp only at hsess
      cases e2 <;> simp [hsess]

/-- C10. `sync_table_changes` propagates no exception: whenever any
statement of the batch raises, the function still returns normally, with
the destination rolled back to the committed tables, the tracking and clock
as the per-table tracking sessions left them, both sessions closed, and the
error reduced to a log line. -/
theorem sync_errors_confined_to_log_and_rollback (f : Faults)
    (names : List TableName) (st : SyncState) (e : DBError)
    (h : (sync_attempt f names st).2 = some e) :
    sync_table_changes f names st
      = ({ primary := st.primary,
           secTables := (sync_attempt f names st).1.secComm,
           tracking := (sync_attempt f names st).1.tracking,
           clock := (sync_attempt f names st).1.clock,
           sess := st.sess },
         (sync_attempt f names st).1.logs
           ++ [LogEntry.errSync names e]) := by
  have hsess : (sync_attempt f names st).1.sess = st.sess + 2 := by
    rw [sync_attempt_fst, syncLoop_sess f st.primary names (initLoop st)]
    rfl
  rw [sync_table_changes_of_err f names st e h, hsess]
  simp

/-- C10, witness: the failed batch `["a", "b"]` returns normally with the
rolled-back state and the error as a log line. -/
theorem sync_errors_confined_witness :
    sync_table_changes noFaults ["a", "b"] exStBatch
      = ({ primary := exStBatch.primary,
           secTables := (sync_attempt noFaults ["a", "b"]
             exStBatch).1.secComm,
           tracking := (sync_attempt noFaults ["a", "b"]
             exStBatch).1.tracking,
           clock := (sync_attempt noFaults ["a", "b"] exStBatch).1.clock,
           sess := exStBatch.sess },
         (sync_attempt noFaults ["a", "b"] exStBatch).1.logs
           ++ [LogEntry.errSync ["a", "b"] (DBError.noSuchTable "b")]) :=
  sync_errors_confined_to_log_and_rollback noFaults ["a", "b"] exStBatch
    (DBError.noSuchTable "b") (by decide)

end DbSync
